import Mathlib

/-!
Verification of the Financial-Portal billable-event core: the idempotency-key
codec, the fee-calculation engine, the billable-event state machine, the
invoice-link payment and aging logic, and the create/race behaviour of the
ledger.  Strings from the TypeScript source are modelled as `List Char`
(`Str`), JavaScript numbers as `ℚ`, dates-as-timestamps as `ℤ` milliseconds,
and thrown exceptions as `Except`-style results.  Each definition is a direct
translation of the corresponding function in the repository source.
-/

namespace FinancialPortal

/-- Strings of the TypeScript source, modelled as lists of characters. -/
abbrev Str := List Char

/-- ASCII uppercase letter test (`A`-`Z`). -/
def isUpperAlpha (c : Char) : Bool :=
  decide ('A' ≤ c) && decide (c ≤ 'Z')

/-- ASCII lowercase letter test (`a`-`z`). -/
def isLowerAlpha (c : Char) : Bool :=
  decide ('a' ≤ c) && decide (c ≤ 'z')

/-- ASCII digit test (`0`-`9`). -/
def isDigitCh (c : Char) : Bool :=
  decide ('0' ≤ c) && decide (c ≤ '9')

/-- Characters kept by the control-number sanitizer: the class `[A-Za-z0-9_-]`
of `controlNumber.replace(/[^A-Za-z0-9_-]/g, '')` in
`generateIdempotencyKey` (src/unnamed/part_001). -/
def isKeyChar (c : Char) : Bool :=
  isUpperAlpha c || isLowerAlpha c || isDigitCh c || decide (c = '_') || decide (c = '-')

/-- Characters allowed in the client-code group of the key pattern:
`[A-Z0-9]` in the regex of `parseIdempotencyKey`. -/
def isClientCodeChar (c : Char) : Bool :=
  isUpperAlpha c || isDigitCh c

/-- Characters allowed in the fee-type group of the key pattern: `[A-Z_]`. -/
def isFeeTypeChar (c : Char) : Bool :=
  isUpperAlpha c || decide (c = '_')

/-- `controlNumber.replace(/[^A-Za-z0-9_-]/g, '').toUpperCase()` from
`generateIdempotencyKey` (src/unnamed/part_001 lines 126-128). -/
def sanitizeControlNumber (cn : Str) : Str :=
  (cn.filter isKeyChar).map Char.toUpper

/-- A trigger date in the canonical ISO `YYYY-MM-DD` form accepted by
`new Date(...)` and re-rendered by `format(..., 'yyyyMMdd')`: ten characters,
dashes at positions 4 and 7, digits elsewhere, month `01`-`12`, day `01`-`31`.
This is the shallow model of "parseable date" for the codec; time zones and
per-month day counts are outside the model. -/
def validIsoDate (s : Str) : Bool :=
  match s with
  | [y1, y2, y3, y4, h1, m1, m2, h2, d1, d2] =>
    decide (h1 = '-') && decide (h2 = '-') &&
    isDigitCh y1 && isDigitCh y2 && isDigitCh y3 && isDigitCh y4 &&
    isDigitCh m1 && isDigitCh m2 && isDigitCh d1 && isDigitCh d2 &&
    decide (1 ≤ 10 * (m1.toNat - 48) + (m2.toNat - 48)) &&
    decide (10 * (m1.toNat - 48) + (m2.toNat - 48) ≤ 12) &&
    decide (1 ≤ 10 * (d1.toNat - 48) + (d2.toNat - 48)) &&
    decide (10 * (d1.toNat - 48) + (d2.toNat - 48) ≤ 31)
  | _ => false

/-- `format(new Date(triggerDate), 'yyyyMMdd')` on a canonical ISO date:
drop the two dashes.  (On a string that is not a valid date the source
throws inside the date library; such inputs are outside the model.) -/
def formatYyyymmdd : Str → Str
  | [y1, y2, y3, y4, _, m1, m2, _, d1, d2] => [y1, y2, y3, y4, m1, m2, d1, d2]
  | s => s

/-- The `YYYYMMDD → YYYY-MM-DD` re-rendering done by `parseIdempotencyKey`
via `dateStr.slice(0,4)-slice(4,6)-slice(6,8)`. -/
def renderIsoDashed : Str → Str
  | [y1, y2, y3, y4, m1, m2, d1, d2] => [y1, y2, y3, y4, '-', m1, m2, '-', d1, d2]
  | s => s

/-- `generateIdempotencyKey` (src/unnamed/part_001 lines 115-131):
uppercased client code, sanitized uppercased control number, `yyyyMMdd`
date, fee type, joined with `-`. -/
def generateIdempotencyKey (clientCode controlNumber triggerDate feeType : Str) : Str :=
  clientCode.map Char.toUpper ++ '-' :: sanitizeControlNumber controlNumber ++
    '-' :: formatYyyymmdd triggerDate ++ '-' :: feeType

/-- Split a character list at every `-`, keeping empty segments, as the
dash-separated view of an idempotency key. -/
def splitDash : Str → List Str
  | [] => [[]]
  | c :: rest =>
    if c = '-' then [] :: splitDash rest
    else
      match splitDash rest with
      | s :: ss => (c :: s) :: ss
      | [] => [[c]]

/-- Rejoin dash-separated segments with `-`; inverse of `splitDash`. -/
def joinDash : List Str → Str
  | [] => []
  | [s] => s
  | s :: t :: rest => s ++ '-' :: joinDash (t :: rest)

/-- `parseIdempotencyKey` (src/unnamed/part_001 lines 136-149), the shallow
embedding of the anchored pattern
`^([A-Z0-9]+)-([A-Za-z0-9_-]+)-(\d{8})-([A-Z_]+)$`.  Because the date group
and the fee-type group cannot contain `-`, a match of the pattern is exactly:
first dash-segment = client code, last = fee type, second-to-last = the
eight-digit date, and everything in between rejoined with `-` = the control
number; the decomposition is unique, so no backtracking semantics are
needed.  Returns `none` on malformed input. -/
def parseIdempotencyKey (key : Str) : Option (Str × Str × Str × Str) :=
  match splitDash key with
  | [] => none
  | c1 :: rest =>
    match rest.reverse with
    | fee :: date :: midRev =>
      let control := joinDash midRev.reverse
      if decide (c1 ≠ []) && c1.all isClientCodeChar &&
         decide (control ≠ []) && control.all isKeyChar &&
         decide (date.length = 8) && date.all isDigitCh &&
         decide (fee ≠ []) && fee.all isFeeTypeChar
      then some (c1, control, renderIsoDashed date, fee)
      else none
    | _ => none

theorem splitDash_ne_nil (xs : Str) : splitDash xs ≠ [] := by
  induction xs with
  | nil => simp [splitDash]
  | cons c rest ih =>
    simp only [splitDash]
    split
    · simp
    · cases h : splitDash rest with
      | nil => exact absurd h ih
      | cons s ss => simp

theorem splitDash_append_dash (xs ys : Str) :
    splitDash (xs ++ '-' :: ys) = splitDash xs ++ splitDash ys := by
  induction xs with
  | nil => simp [splitDash]
  | cons c rest ih =>
    by_cases hc : c = '-'
    · subst hc
      simp [splitDash, ih]
    · simp only [List.cons_append, splitDash, if_neg hc, List.append_eq]
      rw [ih]
      cases h : splitDash rest with
      | nil => exact absurd h (splitDash_ne_nil rest)
      | cons s ss => simp

theorem splitDash_no_dash (xs : Str) (h : '-' ∉ xs) : splitDash xs = [xs] := by
  induction xs with
  | nil => simp [splitDash]
  | cons c rest ih =>
    have hc : c ≠ '-' := fun hcc => h (hcc ▸ List.mem_cons_self c rest)
    have hrest : '-' ∉ rest := fun hm => h (List.mem_cons_of_mem c hm)
    simp [splitDash, if_neg hc, ih hrest]

theorem joinDash_splitDash (xs : Str) : joinDash (splitDash xs) = xs := by
  induction xs with
  | nil => simp [splitDash, joinDash]
  | cons c rest ih =>
    by_cases hc : c = '-'
    · subst hc
      simp only [splitDash, if_pos rfl]
      cases h : splitDash rest with
      | nil => exact absurd h (splitDash_ne_nil rest)
      | cons s ss =>
        rw [h] at ih
        simp [joinDash, ih]
    · simp only [splitDash, if_neg hc]
      cases h : splitDash rest with
      | nil => exact absurd h (splitDash_ne_nil rest)
      | cons s ss =>
        rw [h] at ih
        cases ss with
        | nil => simpa [joinDash] using congrArg (c :: ·) ih
        | cons t ss2 => simpa [joinDash] using congrArg (c :: ·) ih

/-- Currency codes of `CurrencyCode` in src/src/utils/validators.ts. -/
inductive Currency
  | USD | EUR | GBP | CAD | AUD | NZD | CHF | JPY | SGD | HKD | NOK | SEK | DKK
  deriving DecidableEq, Repr

/-- Fee types of `FeeType` in src/src/utils/validators.ts. -/
inductive FeeType
  | PLACEMENT_FEE | ONBOARD_FEE | PROCESSING_FEE | EXTENSION_FEE
  | CANCELLATION_FEE | REFUND | CREDIT | OTHER
  deriving DecidableEq, Repr

/-- The literal string of a fee type, as it appears inside an idempotency key. -/
def feeTypeChars : FeeType → Str
  | .PLACEMENT_FEE => "PLACEMENT_FEE".toList
  | .ONBOARD_FEE => "ONBOARD_FEE".toList
  | .PROCESSING_FEE => "PROCESSING_FEE".toList
  | .EXTENSION_FEE => "EXTENSION_FEE".toList
  | .CANCELLATION_FEE => "CANCELLATION_FEE".toList
  | .REFUND => "REFUND".toList
  | .CREDIT => "CREDIT".toList
  | .OTHER => "OTHER".toList

/-- `calculationType` of a fee rule (src/src/models/ClientPolicy.ts). -/
inductive CalcType
  | FIXED | PERCENTAGE | TIERED
  deriving DecidableEq, Repr

/-- `calculationType` of a tier: only FIXED or PERCENTAGE. -/
inductive TierCalcType
  | FIXED | PERCENTAGE
  deriving DecidableEq, Repr

/-- One tier of a TIERED fee rule (src/src/models/ClientPolicy.ts). -/
structure FeeTier where
  fromAmount : ℚ
  toAmount : Option ℚ
  value : ℚ
  calculationType : TierCalcType
  deriving DecidableEq, Repr

/-- `FeeRuleSchema` (src/src/models/ClientPolicy.ts); the `percentageBase`
label does not influence the calculation and is kept for fidelity. -/
structure FeeRule where
  feeType : FeeType
  calculationType : CalcType
  value : ℚ
  percentageBase : Option Str
  minimumFee : Option ℚ
  maximumFee : Option ℚ
  tiers : Option (List FeeTier)
  deriving DecidableEq, Repr

/-- The fields of `ClientPolicySchema` (src/src/models/ClientPolicy.ts) that
the core services read; presentation-only fields (contacts, refund rules,
proof requirements, descriptions) are omitted. -/
structure ClientPolicy where
  id : Str
  clientId : Str
  clientCode : Str
  clientName : Str
  version : ℚ
  triggerRule : Str
  feeRules : List FeeRule
  paymentTermsDays : ℚ
  currency : Currency
  isActive : Bool
  deriving DecidableEq, Repr

/-- `Math.round(amount * 100) / 100` from `calculateFee`: round to two
decimal places, halves toward positive infinity as JavaScript does. -/
def roundTo2 (x : ℚ) : ℚ :=
  ((⌊x * 100 + 1 / 2⌋ : ℤ) : ℚ) / 100

/-- Membership test of a base amount in a tier, as written in
`PolicyService.calculateFee`: `baseAmount >= t.fromAmount && (t.toAmount ===
undefined || baseAmount <= t.toAmount)` — both bounds inclusive. -/
def tierMatches (baseAmount : ℚ) (t : FeeTier) : Bool :=
  decide (t.fromAmount ≤ baseAmount) &&
    (match t.toAmount with
     | none => true
     | some hi => decide (baseAmount ≤ hi))

/-- The amount a selected tier computes before caps and rounding:
`tier.calculationType === 'FIXED' ? tier.value : (baseAmount * tier.value) / 100`. -/
def tierRawAmount (t : FeeTier) (baseAmount : ℚ) : ℚ :=
  match t.calculationType with
  | .FIXED => t.value
  | .PERCENTAGE => baseAmount * t.value / 100

/-- `PolicyService.calculateFee` (src/src/services/PolicyService.ts lines
228-285): look up the rule for the fee type, compute the raw amount by rule
kind, apply the minimum cap then the maximum cap, round to two decimals,
return the policy currency.  `none` models the `null` returns. -/
def calculateFee (policy : ClientPolicy) (feeType : FeeType) (baseAmount : Option ℚ) :
    Option (ℚ × Currency) :=
  match policy.feeRules.find? (fun r => decide (r.feeType = feeType)) with
  | none => none
  | some feeRule =>
    let raw : Option ℚ :=
      match feeRule.calculationType with
      | .FIXED => some feeRule.value
      | .PERCENTAGE =>
        match baseAmount with
        | none => none
        | some b => some (b * feeRule.value / 100)
      | .TIERED =>
        match feeRule.tiers, baseAmount with
        | some tiers, some b =>
          match tiers.find? (tierMatches b) with
          | none => none
          | some t => some (tierRawAmount t b)
        | _, _ => none
    match raw with
    | none => none
    | some a =>
      let a1 := match feeRule.minimumFee with
        | none => a
        | some lo => max a lo
      let a2 := match feeRule.maximumFee with
        | none => a1
        | some hi => min a1 hi
      some (roundTo2 a2, policy.currency)

/-- Event statuses of `BillableEventStatus` in src/src/utils/validators.ts. -/
inductive BillableEventStatus
  | PENDING | APPROVED | INVOICED | PAID | PARTIAL | OVERDUE
  | HOLD | CANCELLED | REFUNDED | CREDITED
  deriving DecidableEq, Repr

/-- Invoice statuses of `QBInvoiceStatus` in src/src/utils/validators.ts. -/
inductive QBInvoiceStatus
  | DRAFT | PENDING | SENT | VIEWED | PARTIAL | PAID | OVERDUE | VOIDED
  deriving DecidableEq, Repr

/-- Origin tag of an invoice-link status-history entry. -/
inductive SyncSource
  | PORTAL | QB_SYNC
  deriving DecidableEq, Repr

/-- One entry of a billable event's `statusHistory`. -/
structure StatusHistoryEntry where
  status : BillableEventStatus
  timestamp : Str
  userId : Str
  reason : Option Str
  deriving DecidableEq, Repr

/-- `SourceDataSchema` (src/unnamed/part_001): the upstream snapshot; the
free-form `rawData` record is omitted. -/
structure SourceData where
  smartsheetRowId : Option Str
  placementId : Option Str
  controlNumber : Str
  candidateEmail : Option Str
  candidateName : Option Str
  vesselName : Option Str
  positionTitle : Option Str
  contractStartDate : Option Str
  contractEndDate : Option Str
  salary : Option ℚ
  currency : Option Currency
  deriving DecidableEq, Repr

/-- `BillableEventSchema` (src/unnamed/part_001); the optional
exchange-rate triple is omitted as no core operation reads it. -/
structure BillableEvent where
  id : Str
  idempotencyKey : Str
  clientId : Str
  clientCode : Str
  clientName : Str
  controlNumber : Str
  candidateEmail : Option Str
  candidateName : Option Str
  triggerDate : Str
  triggerType : Str
  feeType : FeeType
  amount : ℚ
  currency : Currency
  status : BillableEventStatus
  statusHistory : List StatusHistoryEntry
  policyId : Str
  policyVersion : ℚ
  sourceData : Option SourceData
  approvedAt : Option Str
  approvedBy : Option Str
  approvalNotes : Option Str
  holdReason : Option Str
  holdAt : Option Str
  holdBy : Option Str
  notes : Option Str
  tags : List Str
  createdAt : Str
  createdBy : Str
  updatedAt : Str
  updatedBy : Str
  deriving DecidableEq, Repr

/-- `PaymentRecordSchema` (invoice-link model in src/src/storage). -/
structure PaymentRecord where
  qbPaymentId : Str
  paymentDate : Str
  amount : ℚ
  currency : Currency
  paymentMethod : Option Str
  referenceNumber : Option Str
  memo : Option Str
  syncedAt : Str
  deriving DecidableEq, Repr

/-- One entry of an invoice link's `statusHistory`. -/
structure QbHistoryEntry where
  status : QBInvoiceStatus
  timestamp : Str
  source : SyncSource
  deriving DecidableEq, Repr

/-- `InvoiceLinkSchema` (invoice-link model in src/src/storage).  `dueDate`
is modelled as its epoch timestamp in milliseconds — the value
`new Date(invoiceLink.dueDate).getTime()` which is all the aging logic reads
of it.  The sync-error log and raw QuickBooks snapshots are omitted. -/
structure InvoiceLink where
  id : Str
  billableEventId : Str
  idempotencyKey : Str
  qbInvoiceId : Str
  qbDocNumber : Str
  qbTxnId : Option Str
  invoiceDate : Str
  dueDate : ℤ
  amount : ℚ
  currency : Currency
  qbCustomerId : Str
  qbCustomerName : Str
  qbStatus : QBInvoiceStatus
  statusHistory : List QbHistoryEntry
  totalPaid : ℚ
  balance : ℚ
  payments : List PaymentRecord
  paidInFullDate : Option Str
  lastSyncedAt : Str
  notes : Option Str
  createdAt : Str
  createdBy : Str
  updatedAt : Str
  deriving DecidableEq, Repr

/-- The shared persisted collections of `JsonFileStorage`; audit logs are a
fire-and-forget sink (spec §6) and are not modelled. -/
structure PortalState where
  clientPolicies : List ClientPolicy
  billableEvents : List BillableEvent
  invoiceLinks : List InvoiceLink
  deriving DecidableEq, Repr

/-- The thrown error classes of src/src/utils/errors.ts that the core
services raise.  `ValidationError` is the class the services use for
state-machine violations (the spec's `IllegalTransition` kind);
`DuplicateError` carries the offending idempotency key; `genericError`
models a plain `throw new Error(...)`. -/
inductive AppError
  | validationError (message : Str)
  | notFound (resource : Str) (identifier : Str)
  | duplicateEntry (idempotencyKey : Str)
  | genericError (message : Str)
  deriving DecidableEq, Repr

/-- `storage.getEventById`: first event with the given id. -/
def findEventById (s : PortalState) (id : Str) : Option BillableEvent :=
  s.billableEvents.find? (fun e => decide (e.id = id))

/-- `storage.getInvoiceLinkById`: first link with the given id. -/
def findInvoiceLinkById (s : PortalState) (id : Str) : Option InvoiceLink :=
  s.invoiceLinks.find? (fun l => decide (l.id = id))

/-- `storage.idempotencyKeyExists` on a raw event list:
`billableEvents.some(e => e.idempotencyKey === key)`. -/
def keyExistsIn (events : List BillableEvent) (key : Str) : Bool :=
  events.any (fun e => decide (e.idempotencyKey = key))

/-- `storage.idempotencyKeyExists` on the portal state. -/
def idempotencyKeyExists (s : PortalState) (key : Str) : Bool :=
  keyExistsIn s.billableEvents key

/-- `storage.getPolicyByClientId`: first active policy for the client. -/
def getPolicyByClientId (s : PortalState) (clientId : Str) : Option ClientPolicy :=
  s.clientPolicies.find? (fun p => decide (p.clientId = clientId) && p.isActive)

/-- Replace the first event whose id matches, as `storage.updateEvent` does
via `findIndex` and in-place assignment. -/
def replaceEventById : List BillableEvent → Str → BillableEvent → List BillableEvent
  | [], _, _ => []
  | x :: xs, id, e => if x.id = id then e :: xs else x :: replaceEventById xs id e

/-- Replace the first invoice link whose id matches (`storage.updateInvoiceLink`). -/
def replaceInvoiceLinkById : List InvoiceLink → Str → InvoiceLink → List InvoiceLink
  | [], _, _ => []
  | x :: xs, id, l => if x.id = id then l :: xs else x :: replaceInvoiceLinkById xs id l

/-- `storage.updateEvent(id, updates)` when the caller passes a whole updated
event: the stored record becomes the update with `updatedAt` restamped. -/
def storageUpdateEvent (s : PortalState) (id : Str) (e : BillableEvent) (now : Str) :
    PortalState :=
  { s with billableEvents := replaceEventById s.billableEvents id { e with updatedAt := now } }

/-- `storage.updateInvoiceLink(id, updates)` with a whole updated link. -/
def storageUpdateInvoiceLink (s : PortalState) (id : Str) (l : InvoiceLink) (now : Str) :
    PortalState :=
  { s with invoiceLinks := replaceInvoiceLinkById s.invoiceLinks id { l with updatedAt := now } }

/-- `updateEventStatus` (src/unnamed/part_001 lines 201-224): set the new
status, append a history entry, restamp the update metadata. -/
def updateEventStatus (event : BillableEvent) (newStatus : BillableEventStatus)
    (userId : Str) (reason : Option Str) (now : Str) : BillableEvent :=
  { event with
      status := newStatus,
      statusHistory := event.statusHistory ++ [⟨newStatus, now, userId, reason⟩],
      updatedAt := now,
      updatedBy := userId }

/-- `storage.saveEvent` (src/src/storage/JsonFileStorage.ts lines 185-203):
re-check the idempotency key and push, or throw a plain duplicate `Error`. -/
def saveEvent (s : PortalState) (event : BillableEvent) :
    PortalState × Except AppError BillableEvent :=
  if idempotencyKeyExists s event.idempotencyKey then
    (s, .error (.genericError ("Duplicate entry: idempotency key already exists".toList)))
  else
    ({ s with billableEvents := s.billableEvents ++ [event] }, .ok event)

/-- `IdempotencyService.validateBeforeCreate` (src/src/services/IdempotencyService.ts
lines 67-88): derive the key, throw `DuplicateError(key)` if it exists. -/
def validateBeforeCreate (s : PortalState) (clientCode controlNumber triggerDate : Str)
    (feeType : FeeType) : Except AppError Str :=
  let key := generateIdempotencyKey clientCode controlNumber triggerDate (feeTypeChars feeType)
  if idempotencyKeyExists s key then .error (.duplicateEntry key) else .ok key

/-- The input object of the model-level `createBillableEvent`
(src/unnamed/part_001 lines 154-171). -/
structure NewEventData where
  clientId : Str
  clientCode : Str
  clientName : Str
  controlNumber : Str
  candidateEmail : Option Str
  candidateName : Option Str
  triggerDate : Str
  triggerType : Str
  feeType : FeeType
  amount : ℚ
  currency : Currency
  policyId : Str
  policyVersion : ℚ
  sourceData : Option SourceData
  createdBy : Str
  notes : Option Str
  deriving DecidableEq, Repr

/-- `createBillableEvent` (src/unnamed/part_001 lines 154-196): derive the
idempotency key, status `PENDING`, one creation history entry.  `newId` and
`now` stand for `crypto.randomUUID()` and the current timestamp. -/
def createBillableEvent (input : NewEventData) (newId now : Str) : BillableEvent :=
  { id := newId,
    idempotencyKey := generateIdempotencyKey input.clientCode input.controlNumber
      input.triggerDate (feeTypeChars input.feeType),
    clientId := input.clientId,
    clientCode := input.clientCode,
    clientName := input.clientName,
    controlNumber := input.controlNumber,
    candidateEmail := input.candidateEmail,
    candidateName := input.candidateName,
    triggerDate := input.triggerDate,
    triggerType := input.triggerType,
    feeType := input.feeType,
    amount := input.amount,
    currency := input.currency,
    status := .PENDING,
    statusHistory := [⟨.PENDING, now, input.createdBy,
      some ("Created from Smartsheet data".toList)⟩],
    policyId := input.policyId,
    policyVersion := input.policyVersion,
    sourceData := input.sourceData,
    approvedAt := none,
    approvedBy := none,
    approvalNotes := none,
    holdReason := none,
    holdAt := none,
    holdBy := none,
    notes := input.notes,
    tags := [],
    createdAt := now,
    createdBy := input.createdBy,
    updatedAt := now,
    updatedBy := input.createdBy }

/-- The request payload of `BillableEventService.createEvent`. -/
structure CreateEventInput where
  clientId : Str
  controlNumber : Str
  candidateEmail : Option Str
  candidateName : Option Str
  triggerDate : Str
  triggerType : Str
  feeType : FeeType
  amount : Option ℚ
  sourceData : Option SourceData
  notes : Option Str
  deriving DecidableEq, Repr

/-- `BillableEventService.createEvent` (src/unnamed/part_004 lines 86-173):
look up the active policy, validate the idempotency key, compute the fee
from the policy when no amount is supplied, build the event and save it.
A thrown error leaves the state untouched (every throw precedes the save). -/
def createEvent (s : PortalState) (userId : Str) (input : CreateEventInput)
    (newId now : Str) : PortalState × Except AppError BillableEvent :=
  match getPolicyByClientId s input.clientId with
  | none => (s, .error (.validationError ("No active policy found for client".toList)))
  | some policy =>
    match validateBeforeCreate s policy.clientCode input.controlNumber
        input.triggerDate input.feeType with
    | .error e => (s, .error e)
    | .ok _ =>
      let amt : Option ℚ :=
        match input.amount with
        | some a => some a
        | none =>
          (calculateFee policy input.feeType
            (input.sourceData.bind (fun d => d.salary))).map Prod.fst
      match amt with
      | none => (s, .error (.validationError ("Unable to calculate fee".toList)))
      | some amount =>
        saveEvent s (createBillableEvent
          { clientId := input.clientId,
            clientCode := policy.clientCode,
            clientName := policy.clientName,
            controlNumber := input.controlNumber,
            candidateEmail := input.candidateEmail,
            candidateName := input.candidateName,
            triggerDate := input.triggerDate,
            triggerType := input.triggerType,
            feeType := input.feeType,
            amount := amount,
            currency := policy.currency,
            policyId := policy.id,
            policyVersion := policy.version,
            sourceData := input.sourceData,
            createdBy := userId,
            notes := input.notes } newId now)

/-- `BillableEventService.approveEvent` (src/unnamed/part_004 lines 179-216):
legal only from `PENDING` or `HOLD`, otherwise a `ValidationError` (the
spec's `IllegalTransition`) with the state untouched; on success sets
`APPROVED`, stamps the approval metadata and appends history. -/
def approveEvent (s : PortalState) (userId id : Str) (notes : Option Str) (now : Str) :
    PortalState × Except AppError BillableEvent :=
  match findEventById s id with
  | none => (s, .error (.notFound ("BillableEvent".toList) id))
  | some event =>
    if event.status = .PENDING ∨ event.status = .HOLD then
      let updated0 := updateEventStatus event .APPROVED userId notes now
      let updated := { updated0 with
        approvedAt := some now, approvedBy := some userId, approvalNotes := notes }
      (storageUpdateEvent s id updated now, .ok updated)
    else
      (s, .error (.validationError ("Event cannot be approved".toList)))

/-- `BillableEventService.markAsPaid` (src/unnamed/part_004 lines 295-311):
no status precondition at all — fetch the event, set `PAID`, append history. -/
def markAsPaid (s : PortalState) (userId id : Str) (now : Str) :
    PortalState × Except AppError BillableEvent :=
  match findEventById s id with
  | none => (s, .error (.notFound ("BillableEvent".toList) id))
  | some event =>
    let updated := updateEventStatus event .PAID userId
      (some ("Payment received".toList)) now
    (storageUpdateEvent s id updated now, .ok updated)

/-- `recordPayment` (invoice-link model, src/src/storage lines 511-547):
accumulate the payment, recompute the balance clamped at zero, derive the
status (`balance ≤ 0 → PAID` stamping `paidInFullDate`, else
`totalPaid > 0 → PARTIAL`, else unchanged) and append a sync-sourced
history entry. -/
def recordPayment (invoiceLink : InvoiceLink) (payment : PaymentRecord) (now : Str) :
    InvoiceLink :=
  let newTotalPaid := invoiceLink.totalPaid + payment.amount
  let newBalance := invoiceLink.amount - newTotalPaid
  let newStatus :=
    if newBalance ≤ 0 then QBInvoiceStatus.PAID
    else if 0 < newTotalPaid then QBInvoiceStatus.PARTIAL
    else invoiceLink.qbStatus
  let newPaidInFullDate :=
    if newBalance ≤ 0 then some payment.paymentDate else invoiceLink.paidInFullDate
  { invoiceLink with
      totalPaid := newTotalPaid,
      balance := max 0 newBalance,
      payments := invoiceLink.payments ++ [payment],
      paidInFullDate := newPaidInFullDate,
      qbStatus := newStatus,
      statusHistory := invoiceLink.statusHistory ++ [⟨newStatus, now, .QB_SYNC⟩],
      lastSyncedAt := now,
      updatedAt := now }

/-- The payload of `InvoiceService.recordPaymentFromQb`
(`Omit<PaymentRecord, 'syncedAt'>`). -/
structure PaymentInput where
  qbPaymentId : Str
  paymentDate : Str
  amount : ℚ
  currency : Currency
  paymentMethod : Option Str
  referenceNumber : Option Str
  memo : Option Str
  deriving DecidableEq, Repr

/-- Stamp `syncedAt` onto an incoming payment, as `recordPaymentFromQb` does. -/
def mkPaymentRecord (p : PaymentInput) (now : Str) : PaymentRecord :=
  { qbPaymentId := p.qbPaymentId, paymentDate := p.paymentDate, amount := p.amount,
    currency := p.currency, paymentMethod := p.paymentMethod,
    referenceNumber := p.referenceNumber, memo := p.memo, syncedAt := now }

/-- `InvoiceService.recordPaymentFromQb` (src/src/services/InvoiceService.ts
lines 219-257): apply `recordPayment`, persist the link and, when the new
status is `PAID`, transition the linked billable event via `markAsPaid`.
The link update persists even if the event lookup then fails. -/
def recordPaymentFromQb (s : PortalState) (userId linkId : Str) (p : PaymentInput)
    (now : Str) : PortalState × Except AppError InvoiceLink :=
  match findInvoiceLinkById s linkId with
  | none => (s, .error (.notFound ("InvoiceLink".toList) linkId))
  | some invoiceLink =>
    let updated := recordPayment invoiceLink (mkPaymentRecord p now) now
    let s1 := storageUpdateInvoiceLink s linkId updated now
    if updated.qbStatus = .PAID then
      match markAsPaid s1 userId updated.billableEventId now with
      | (s2, .ok _) => (s2, .ok updated)
      | (s2, .error e) => (s2, .error e)
    else
      (s1, .ok updated)

/-- A sequence of `recordPayment` applications (the "applyPayment" sequences
of the spec's balance invariant); the history timestamp does not influence
the derived amounts. -/
def applyPayments (l : InvoiceLink) (ps : List PaymentRecord) (now : Str) : InvoiceLink :=
  ps.foldl (fun acc q => recordPayment acc q now) l

/-- Milliseconds in a day: the `1000 * 60 * 60 * 24` of the aging code. -/
def msPerDay : ℤ := 86400000

/-- `Math.ceil(a / b)` for an integer millisecond difference and positive
divisor, as used in the days-overdue computations. -/
def ceilDiv (a b : ℤ) : ℤ := -(-a / b)

/-- `getDaysOverdue` (invoice-link model, src/src/storage lines 552-563):
zero when the link is `PAID` or its balance is non-positive, otherwise the
ceiling of the day difference floored at zero.  `nowMs` is
`new Date().getTime()`. -/
def getDaysOverdue (invoiceLink : InvoiceLink) (nowMs : ℤ) : ℤ :=
  if invoiceLink.qbStatus = .PAID ∨ invoiceLink.balance ≤ 0 then 0
  else max 0 (ceilDiv (nowMs - invoiceLink.dueDate) msPerDay)

/-- `isOverdue` (invoice-link model, src/src/storage lines 568-570). -/
def isOverdue (invoiceLink : InvoiceLink) (nowMs : ℤ) : Bool :=
  decide (0 < getDaysOverdue invoiceLink nowMs)

/-- The four aging buckets of `ReconciliationService.getOverdueReport`. -/
inductive AgingBucket
  | b1to30 | b31to60 | b61to90 | b90plus
  deriving DecidableEq, Repr

/-- The bucket chain of `getOverdueReport`
(src/src/services/ReconciliationService.ts lines 151-160). -/
def bucketOf (daysOverdue : ℤ) : AgingBucket :=
  if daysOverdue ≤ 30 then .b1to30
  else if daysOverdue ≤ 60 then .b31to60
  else if daysOverdue ≤ 90 then .b61to90
  else .b90plus

/-- The days-overdue recomputation inside `getOverdueReport` (applied to
already-overdue links, without the guards of `getDaysOverdue`). -/
def reportDaysOverdue (invoiceLink : InvoiceLink) (nowMs : ℤ) : ℤ :=
  ceilDiv (nowMs - invoiceLink.dueDate) msPerDay

/-!
Interleaving model of concurrent `createEvent` calls.  In the source every
`await` yields control, so a concurrent creator can run between the
existence read of `IdempotencyService.keyExists` and the later
`storage.saveEvent`, and again between `saveEvent`'s own
`getEventByIdempotencyKey` read and its `push` (the read resolves before the
continuation that pushes runs).  A create call for a fixed event is
therefore three atomic actions on the shared event list: the validate read,
the save read, and the unconditional push that uses the second read's
result. -/

/-- Program counter of an in-flight `createEvent` call: `0` before the
validate read, `1` before the save read, `2` past both reads with the push
pending, `3` finished. -/
structure RaceTask where
  event : BillableEvent
  pc : Nat
  failedDup : Bool
  deriving DecidableEq, Repr

/-- The shared event list plus the in-flight create calls. -/
structure RaceState where
  events : List BillableEvent
  tasks : List RaceTask
  deriving DecidableEq, Repr

/-- One atomic action of a create call against the shared list. -/
def stepTask (events : List BillableEvent) (t : RaceTask) :
    List BillableEvent × RaceTask :=
  match t.pc with
  | 0 =>
    if keyExistsIn events t.event.idempotencyKey then
      (events, { t with pc := 3, failedDup := true })
    else (events, { t with pc := 1 })
  | 1 =>
    if keyExistsIn events t.event.idempotencyKey then
      (events, { t with pc := 3, failedDup := true })
    else (events, { t with pc := 2 })
  | 2 => (events ++ [t.event], { t with pc := 3 })
  | _ => (events, t)

/-- Run one scheduler choice: advance task `i` by one atomic action. -/
def stepSchedule (st : RaceState) (i : Nat) : RaceState :=
  match st.tasks.get? i with
  | none => st
  | some t =>
    let r := stepTask st.events t
    { events := r.1, tasks := st.tasks.set i r.2 }

/-- Run a whole schedule (a sequence of task indices). -/
def runSchedule (st : RaceState) (sched : List Nat) : RaceState :=
  sched.foldl stepSchedule st

/-! Concrete fixtures used to instantiate the theorems. -/

/-- A policy with one PERCENTAGE 15% rule capped to `[100, 2000]`. -/
def pctPolicy : ClientPolicy :=
  { id := "policy-pct".toList, clientId := "client-1".toList, clientCode := "ACME".toList,
    clientName := "Acme Crewing".toList, version := 1, triggerRule := "ON_PLACEMENT".toList,
    feeRules := [{ feeType := .PLACEMENT_FEE, calculationType := .PERCENTAGE, value := 15,
                   percentageBase := some ("SALARY".toList), minimumFee := some 100,
                   maximumFee := some 2000, tiers := none }],
    paymentTermsDays := 30, currency := .USD, isActive := true }

/-- A policy with one FIXED 500 rule and no caps. -/
def fixed500Policy : ClientPolicy :=
  { pctPolicy with
      id := "policy-fixed".toList,
      feeRules := [{ feeType := .PLACEMENT_FEE, calculationType := .FIXED, value := 500,
                     percentageBase := none, minimumFee := none,
                     maximumFee := none, tiers := none }] }

/-- A single tier `[0, 100]` computing the FIXED value 50. -/
def sampleTier : FeeTier :=
  { fromAmount := 0, toAmount := some 100, value := 50, calculationType := .FIXED }

/-- A TIERED rule with `sampleTier` as its only tier and no caps. -/
def sampleTierRule : FeeRule :=
  { feeType := .PLACEMENT_FEE, calculationType := .TIERED, value := 0,
    percentageBase := none, minimumFee := none, maximumFee := none,
    tiers := some [sampleTier] }

/-- A policy with one TIERED rule whose single tier is `[0, 100]` FIXED 50. -/
def tierPolicy : ClientPolicy :=
  { pctPolicy with
      id := "policy-tier".toList,
      feeRules := [sampleTierRule] }

/-- A pending billable event fixture. -/
def sampleEvent : BillableEvent :=
  { id := "evt-1".toList,
    idempotencyKey := "ACME-X1-20240102-PLACEMENT_FEE".toList,
    clientId := "client-1".toList, clientCode := "ACME".toList,
    clientName := "Acme Crewing".toList, controlNumber := "X1".toList,
    candidateEmail := none, candidateName := none,
    triggerDate := "2024-01-02".toList, triggerType := "PLACEMENT".toList,
    feeType := .PLACEMENT_FEE, amount := 1000, currency := .USD,
    status := .PENDING, statusHistory := [], policyId := "policy-pct".toList,
    policyVersion := 1, sourceData := none,
    approvedAt := none, approvedBy := none, approvalNotes := none,
    holdReason := none, holdAt := none, holdBy := none,
    notes := none, tags := [], createdAt := "t0".toList, createdBy := "u0".toList,
    updatedAt := "t0".toList, updatedBy := "u0".toList }

/-- An unpaid invoice-link fixture of amount 1000 due at epoch 0. -/
def sampleLink : InvoiceLink :=
  { id := "inv-1".toList, billableEventId := "evt-1".toList,
    idempotencyKey := "ACME-X1-20240102-PLACEMENT_FEE".toList,
    qbInvoiceId := "QB-1".toList, qbDocNumber := "INV-001".toList, qbTxnId := none,
    invoiceDate := "2024-01-02".toList, dueDate := 0, amount := 1000, currency := .USD,
    qbCustomerId := "CUST-1".toList, qbCustomerName := "Acme Crewing".toList,
    qbStatus := .PENDING, statusHistory := [], totalPaid := 0, balance := 1000,
    payments := [], paidInFullDate := none, lastSyncedAt := "t0".toList, notes := none,
    createdAt := "t0".toList, createdBy := "u0".toList, updatedAt := "t0".toList }

/-- A concrete payment payload of the given amount. -/
def mkSamplePayment (amount : ℚ) : PaymentInput :=
  { qbPaymentId := "PAY-1".toList, paymentDate := "2024-02-01".toList, amount := amount,
    currency := .USD, paymentMethod := none, referenceNumber := none, memo := none }

/-- A synced 400 payment record. -/
def pay400 : PaymentRecord := mkPaymentRecord (mkSamplePayment 400) ("t1".toList)

/-- A synced 600 payment record. -/
def pay600 : PaymentRecord := mkPaymentRecord (mkSamplePayment 600) ("t2".toList)

/-- A portal state holding the sample event and its invoice link. -/
def c3State : PortalState :=
  { clientPolicies := [], billableEvents := [sampleEvent], invoiceLinks := [sampleLink] }

/-- A link whose status was overridden to `PAID` by an external sync while a
positive balance remains (reachable through `updateStatusFromQb`). -/
def paidOverrideLink : InvoiceLink :=
  { sampleLink with qbStatus := .PAID, balance := 100 }

/-- The sample event already invoiced. -/
def invoicedEvent : BillableEvent :=
  { sampleEvent with status := .INVOICED }

/-- The sample event already paid. -/
def alreadyPaidEvent : BillableEvent :=
  { sampleEvent with status := .PAID }

/-- A portal state holding only the invoiced event. -/
def c8State : PortalState :=
  { clientPolicies := [], billableEvents := [invoicedEvent], invoiceLinks := [] }

/-- A portal state holding only the already-paid event. -/
def c10State : PortalState :=
  { clientPolicies := [], billableEvents := [alreadyPaidEvent], invoiceLinks := [] }

/-- A portal state with the percentage policy and an empty ledger. -/
def c1State : PortalState :=
  { clientPolicies := [pctPolicy], billableEvents := [], invoiceLinks := [] }

/-- A creation request matching `pctPolicy` with an explicit amount. -/
def c1Input : CreateEventInput :=
  { clientId := "client-1".toList, controlNumber := "X1".toList, candidateEmail := none,
    candidateName := none, triggerDate := "2024-01-02".toList,
    triggerType := "PLACEMENT".toList, feeType := .PLACEMENT_FEE, amount := some 1000,
    sourceData := none, notes := none }

/-- The event `createEvent c1State "u1" c1Input "evt-1" "t1"` builds. -/
def c1Event : BillableEvent :=
  createBillableEvent
    { clientId := c1Input.clientId, clientCode := pctPolicy.clientCode,
      clientName := pctPolicy.clientName, controlNumber := c1Input.controlNumber,
      candidateEmail := none, candidateName := none, triggerDate := c1Input.triggerDate,
      triggerType := c1Input.triggerType, feeType := c1Input.feeType, amount := 1000,
      currency := pctPolicy.currency, policyId := pctPolicy.id,
      policyVersion := pctPolicy.version, sourceData := none,
      createdBy := "u1".toList, notes := none } ("evt-1".toList) ("t1".toList)

/-- The portal state after the first successful creation. -/
def c1StateAfter : PortalState :=
  { c1State with billableEvents := [c1Event] }

/-- First concurrent creator's event. -/
def raceEventA : BillableEvent := { sampleEvent with id := "evt-A".toList }

/-- Second concurrent creator's event: a distinct row carrying the same
idempotency key. -/
def raceEventB : BillableEvent := { sampleEvent with id := "evt-B".toList }

/-- Two concurrent create calls for the same derived key over an empty
ledger. -/
def raceInit : RaceState :=
  { events := [],
    tasks := [{ event := raceEventA, pc := 0, failedDup := false },
              { event := raceEventB, pc := 0, failedDup := false }] }

/-! Helper lemmas. -/

theorem all_not_dash {p : Char → Bool} {xs : Str} (h : xs.all p = true)
    (hp : p '-' = false) : '-' ∉ xs := by
  intro hm
  have hc := List.all_eq_true.mp h _ hm
  rw [hp] at hc
  exact Bool.noConfusion hc

theorem isKeyChar_toUpper (c : Char) (h : isKeyChar c = true) :
    isKeyChar c.toUpper = true := by
  have hdef : c.toUpper =
      if c.toNat ≥ 97 ∧ c.toNat ≤ 122 then Char.ofNat (c.toNat - 32) else c := rfl
  rw [hdef]
  split
  next hc =>
    obtain ⟨h1, h2⟩ := hc
    generalize Char.toNat c = n at h1 h2 ⊢
    interval_cases n <;> decide
  next => exact h

theorem sanitize_all_keyChar (cn : Str) :
    (sanitizeControlNumber cn).all isKeyChar = true := by
  unfold sanitizeControlNumber
  rw [List.all_map, List.all_eq_true]
  intro c hc
  exact isKeyChar_toUpper c (List.of_mem_filter hc)

theorem validIso_props (s : Str) (h : validIsoDate s = true) :
    renderIsoDashed (formatYyyymmdd s) = s ∧ (formatYyyymmdd s).length = 8 ∧
      (formatYyyymmdd s).all isDigitCh = true := by
  rcases s with _ | ⟨y1, _ | ⟨y2, _ | ⟨y3, _ | ⟨y4, _ | ⟨h1, _ | ⟨m1, _ | ⟨m2, _ | ⟨h2,
    _ | ⟨d1, _ | ⟨d2, _ | ⟨c, t⟩⟩⟩⟩⟩⟩⟩⟩⟩⟩⟩ <;>
    simp_all [validIsoDate, formatYyyymmdd, renderIsoDashed, List.all]

/-- C9. For inputs satisfying the sanitization rules — a client code whose
uppercasing is a nonempty run of `[A-Z0-9]`, a control number that keeps at
least one `[A-Za-z0-9_-]` character after sanitization, a parseable ISO
trigger date and a nonempty `[A-Z_]` fee type — `parseIdempotencyKey`
applied to `generateIdempotencyKey` recovers the uppercased client code, the
sanitized uppercased control number, the trigger date re-rendered as ISO
`YYYY-MM-DD` (identical to the valid input date) and the fee type; and the
derivation is deterministic in its four inputs. -/
theorem c9_keyCodec_roundTrip (cc cn td ft : Str)
    (hccA : (cc.map Char.toUpper).all isClientCodeChar = true)
    (hccNe : cc ≠ [])
    (hcnNe : sanitizeControlNumber cn ≠ [])
    (htd : validIsoDate td = true)
    (hftA : ft.all isFeeTypeChar = true)
    (hftNe : ft ≠ []) :
    parseIdempotencyKey (generateIdempotencyKey cc cn td ft) =
      some (cc.map Char.toUpper, sanitizeControlNumber cn, td, ft) ∧
    (∀ cc2 cn2 td2 ft2, cc2 = cc → cn2 = cn → td2 = td → ft2 = ft →
      generateIdempotencyKey cc2 cn2 td2 ft2 = generateIdempotencyKey cc cn td ft) := by
  obtain ⟨hrender, hlen, hdig⟩ := validIso_props td htd
  set A := cc.map Char.toUpper with hA
  set B := sanitizeControlNumber cn with hB
  set C := formatYyyymmdd td with hC
  refine ⟨?_, by intro cc2 cn2 td2 ft2 e1 e2 e3 e4; rw [e1, e2, e3, e4]⟩
  have hkey : generateIdempotencyKey cc cn td ft = A ++ '-' :: (B ++ '-' :: (C ++ '-' :: ft)) := by
    simp [generateIdempotencyKey, List.append_assoc]
  have hAnd : '-' ∉ A := all_not_dash hccA (by decide)
  have hCnd : '-' ∉ C := all_not_dash hdig (by decide)
  have hFnd : '-' ∉ ft := all_not_dash hftA (by decide)
  have hsplit : splitDash (generateIdempotencyKey cc cn td ft) =
      A :: (splitDash B ++ [C, ft]) := by
    rw [hkey, splitDash_append_dash, splitDash_append_dash, splitDash_append_dash,
      splitDash_no_dash A hAnd, splitDash_no_dash C hCnd, splitDash_no_dash ft hFnd]
    simp
  have hAne : A ≠ [] := by
    rw [hA]
    exact fun hmap => hccNe (List.map_eq_nil_iff.mp hmap)
  rw [parseIdempotencyKey, hsplit]
  simp only [List.reverse_append, List.reverse_cons, List.reverse_nil, List.nil_append,
    List.cons_append, List.reverse_reverse]
  rw [joinDash_splitDash]
  have hBall : B.all isKeyChar = true := by
    rw [hB]
    exact sanitize_all_keyChar cn
  have hcond : (decide (A ≠ []) && A.all isClientCodeChar &&
      decide (B ≠ []) && B.all isKeyChar &&
      decide (C.length = 8) && C.all isDigitCh &&
      decide (ft ≠ []) && ft.all isFeeTypeChar) = true := by
    simp only [Bool.and_eq_true, decide_eq_true_eq]
    exact ⟨⟨⟨⟨⟨⟨⟨hAne, hccA⟩, hcnNe⟩, hBall⟩, hlen⟩, hdig⟩, hftNe⟩, hftA⟩
  rw [hcond]
  simp [hrender]

/-- Witness for C9 at `clientCode = "acme"`, `controlNumber = "pl#1-2"`,
`triggerDate = "2023-12-15"`, `feeType = "PLACEMENT_FEE"`. -/
theorem c9_keyCodec_roundTrip_witness :
    parseIdempotencyKey (generateIdempotencyKey ("acme".toList) ("pl#1-2".toList)
        ("2023-12-15".toList) ("PLACEMENT_FEE".toList)) =
      some (("acme".toList).map Char.toUpper, sanitizeControlNumber ("pl#1-2".toList),
        "2023-12-15".toList, "PLACEMENT_FEE".toList) :=
  (c9_keyCodec_roundTrip ("acme".toList) ("pl#1-2".toList) ("2023-12-15".toList)
    ("PLACEMENT_FEE".toList) (by decide) (by decide) (by decide) (by decide)
    (by decide) (by decide)).1

/-- C5. A FIXED rule yields the same result for every supplied base amount;
for a PERCENTAGE rule with both caps set the result is the raw percentage
clamped low then high (`min (max raw lo) hi`) and rounded to two decimals;
the returned currency is always the policy's billing currency; and the
spec's concrete examples hold: 15% with caps `[100, 2000]` maps bases
100 / 20000 / 4000 to 100 / 2000 / 600, and FIXED 500 with no caps yields
500 for every base. -/
theorem c5_feeClamping :
    (∀ (policy : ClientPolicy) (feeType : FeeType) (b1 b2 : Option ℚ) (rule : FeeRule),
      policy.feeRules.find? (fun r => decide (r.feeType = feeType)) = some rule →
      rule.calculationType = .FIXED →
      calculateFee policy feeType b1 = calculateFee policy feeType b2) ∧
    (∀ (policy : ClientPolicy) (feeType : FeeType) (b v lo hi : ℚ) (rule : FeeRule),
      policy.feeRules.find? (fun r => decide (r.feeType = feeType)) = some rule →
      rule.calculationType = .PERCENTAGE → rule.value = v →
      rule.minimumFee = some lo → rule.maximumFee = some hi →
      calculateFee policy feeType (some b) =
        some (roundTo2 (min (max (b * v / 100) lo) hi), policy.currency)) ∧
    (∀ (policy : ClientPolicy) (feeType : FeeType) (b : Option ℚ) (a : ℚ) (c : Currency),
      calculateFee policy feeType b = some (a, c) → c = policy.currency) ∧
    calculateFee pctPolicy .PLACEMENT_FEE (some 100) = some (100, .USD) ∧
    calculateFee pctPolicy .PLACEMENT_FEE (some 20000) = some (2000, .USD) ∧
    calculateFee pctPolicy .PLACEMENT_FEE (some 4000) = some (600, .USD) ∧
    (∀ b : Option ℚ, calculateFee fixed500Policy .PLACEMENT_FEE b = some (500, .USD)) := by
  refine ⟨?_, ?_, ?_, ?_, ?_, ?_, ?_⟩
  · intro policy feeType b1 b2 rule hfind hty
    simp [calculateFee, hfind, hty]
  · intro policy feeType b v lo hi rule hfind hty hv hlo hhi
    simp [calculateFee, hfind, hty, hv, hlo, hhi]
  · intro policy feeType b a c h
    simp only [calculateFee] at h
    split at h
    · exact Option.noConfusion h
    · split at h
      · exact Option.noConfusion h
      · simp only [Option.some.injEq, Prod.mk.injEq] at h
        exact h.2.symm
  · simp [calculateFee, pctPolicy, roundTo2]
    norm_num [max_def, min_def]
  · simp [calculateFee, pctPolicy, roundTo2]
    norm_num [max_def, min_def]
  · simp [calculateFee, pctPolicy, roundTo2]
    norm_num [max_def, min_def]
  · intro b
    simp [calculateFee, fixed500Policy, pctPolicy, roundTo2]
    norm_num

/-- Witness for C5: the FIXED-rule base-independence and the PERCENTAGE
clamp formula instantiated at the concrete fixtures. -/
theorem c5_feeClamping_witness :
    calculateFee fixed500Policy .PLACEMENT_FEE (some 1) =
      calculateFee fixed500Policy .PLACEMENT_FEE (some 99999) ∧
    calculateFee pctPolicy .PLACEMENT_FEE (some 20000) =
      some (roundTo2 (min (max ((20000 : ℚ) * 15 / 100) 100) 2000), pctPolicy.currency) :=
  ⟨c5_feeClamping.1 fixed500Policy .PLACEMENT_FEE (some 1) (some 99999)
      { feeType := .PLACEMENT_FEE, calculationType := .FIXED, value := 500,
        percentageBase := none, minimumFee := none, maximumFee := none, tiers := none }
      (by rfl) (by rfl),
    c5_feeClamping.2.1 pctPolicy .PLACEMENT_FEE 20000 15 100 2000
      { feeType := .PLACEMENT_FEE, calculationType := .PERCENTAGE, value := 15,
        percentageBase := some ("SALARY".toList), minimumFee := some 100,
        maximumFee := some 2000, tiers := none }
      (by rfl) (by rfl) (by rfl) (by rfl) (by rfl)⟩

/-- Counterexample to C6 as stated: the claim says a base amount exactly
equal to a tier's `toAmount` falls outside that tier, so with a single tier
`[0, 100]` a base of 100 should give no applicable fee; the code's tier test
uses `baseAmount <= t.toAmount` and selects the tier, returning its FIXED
value 50. -/
theorem c6_tierBoundary_counterexample :
    calculateFee tierPolicy .PLACEMENT_FEE (some 100) = some (50, .USD) ∧
    calculateFee tierPolicy .PLACEMENT_FEE (some 100) ≠ none := by
  constructor
  · simp [calculateFee, tierPolicy, pctPolicy, sampleTierRule, sampleTier,
      tierMatches, tierRawAmount, roundTo2]
    norm_num
  · simp [calculateFee, tierPolicy, pctPolicy, sampleTierRule, sampleTier,
      tierMatches, tierRawAmount, roundTo2]

/-- C6 (amended). A TIERED rule requires a base amount and a tier list
(`none` otherwise); it selects the first tier whose closed interval
`[fromAmount, toAmount]` — an absent `toAmount` meaning unbounded above,
and a base exactly equal to `toAmount` falling inside the tier — contains
the base; with no matching tier the result is not-applicable; the selected
tier computes its FIXED value or its PERCENTAGE of the base (rounding then
applies). -/
theorem c6_tieredSelection :
    (∀ (policy : ClientPolicy) (feeType : FeeType) (b : ℚ) (rule : FeeRule)
        (tiers : List FeeTier),
      policy.feeRules.find? (fun r => decide (r.feeType = feeType)) = some rule →
      rule.calculationType = .TIERED → rule.tiers = some tiers →
      rule.minimumFee = none → rule.maximumFee = none →
      calculateFee policy feeType (some b) =
        (match tiers.find? (tierMatches b) with
         | none => none
         | some t => some (roundTo2 (tierRawAmount t b), policy.currency))) ∧
    (∀ (t : FeeTier) (b : ℚ), tierMatches b t = true ↔
      (t.fromAmount ≤ b ∧ (t.toAmount = none ∨ ∃ hi, t.toAmount = some hi ∧ b ≤ hi))) ∧
    (∀ (policy : ClientPolicy) (feeType : FeeType) (rule : FeeRule),
      policy.feeRules.find? (fun r => decide (r.feeType = feeType)) = some rule →
      rule.calculationType = .TIERED →
      calculateFee policy feeType none = none) ∧
    (∀ (policy : ClientPolicy) (feeType : FeeType) (b : ℚ) (rule : FeeRule),
      policy.feeRules.find? (fun r => decide (r.feeType = feeType)) = some rule →
      rule.calculationType = .TIERED → rule.tiers = none →
      calculateFee policy feeType (some b) = none) ∧
    (∀ (t : FeeTier) (b : ℚ), t.calculationType = .FIXED → tierRawAmount t b = t.value) ∧
    (∀ (t : FeeTier) (b : ℚ), t.calculationType = .PERCENTAGE →
      tierRawAmount t b = b * t.value / 100) ∧
    tierMatches 100 sampleTier = true := by
  refine ⟨?_, ?_, ?_, ?_, ?_, ?_, ?_⟩
  · intro policy feeType b rule tiers hfind hty htiers hlo hhi
    simp only [calculateFee, hfind, hty, htiers, hlo, hhi]
    cases tiers.find? (tierMatches b) with
    | none => simp
    | some t => simp
  · intro t b
    unfold tierMatches
    cases hto : t.toAmount with
    | none => simp [hto]
    | some hi => simp [hto]
  · intro policy feeType rule hfind hty
    cases htiers : rule.tiers <;> simp [calculateFee, hfind, hty, htiers]
  · intro policy feeType b rule hfind hty htiers
    simp [calculateFee, hfind, hty, htiers]
  · intro t b h
    simp [tierRawAmount, h]
  · intro t b h
    simp [tierRawAmount, h]
  · simp [tierMatches, sampleTier]

/-- Witness for C6 (amended): the tier-selection equation and the interval
membership test instantiated at the single-tier fixture with base 100. -/
theorem c6_tieredSelection_witness :
    calculateFee tierPolicy .PLACEMENT_FEE (some 100) =
      (match ([sampleTier]).find? (tierMatches 100) with
       | none => none
       | some t => some (roundTo2 (tierRawAmount t 100), tierPolicy.currency)) ∧
    (tierMatches 100 sampleTier = true ↔
      (sampleTier.fromAmount ≤ 100 ∧ (sampleTier.toAmount = none ∨
        ∃ hi, sampleTier.toAmount = some hi ∧ (100 : ℚ) ≤ hi))) :=
  ⟨c6_tieredSelection.1 tierPolicy .PLACEMENT_FEE 100 sampleTierRule [sampleTier]
      (by rfl) (by rfl) (by rfl) (by rfl) (by rfl),
    c6_tieredSelection.2.1 sampleTier 100⟩

/-! Helper lemmas about storage updates and payments. -/

theorem find?_replaceEventById (events : List BillableEvent) (id : Str)
    (e e2 : BillableEvent)
    (hfind : events.find? (fun x => decide (x.id = id)) = some e) (hid : e2.id = id) :
    (replaceEventById events id e2).find? (fun x => decide (x.id = id)) = some e2 := by
  induction events with
  | nil => exact Option.noConfusion hfind
  | cons x xs ih =>
    by_cases hx : x.id = id
    · simp [replaceEventById, hx, List.find?_cons, hid]
    · rw [List.find?_cons_of_neg _ (by simp [hx])] at hfind
      simp only [replaceEventById, if_neg hx]
      rw [List.find?_cons_of_neg _ (by simp [hx])]
      exact ih hfind

theorem findEventById_storageUpdate (s : PortalState) (id : Str) (e e2 : BillableEvent)
    (now : Str) (hfind : findEventById s id = some e) (hid : e2.id = id) :
    findEventById (storageUpdateEvent s id e2 now) id = some { e2 with updatedAt := now } :=
  find?_replaceEventById s.billableEvents id e _ hfind hid

theorem findEventById_updateInvoiceLink (s : PortalState) (id linkId : Str)
    (l : InvoiceLink) (now : Str) :
    findEventById (storageUpdateInvoiceLink s linkId l now) id = findEventById s id := rfl

theorem recordPayment_amount (l : InvoiceLink) (q : PaymentRecord) (now : Str) :
    (recordPayment l q now).amount = l.amount := rfl

theorem recordPayment_totalPaid (l : InvoiceLink) (q : PaymentRecord) (now : Str) :
    (recordPayment l q now).totalPaid = l.totalPaid + q.amount := rfl

theorem recordPayment_balance (l : InvoiceLink) (q : PaymentRecord) (now : Str) :
    (recordPayment l q now).balance = max 0 (l.amount - (l.totalPaid + q.amount)) := rfl

theorem recordPayment_eventId (l : InvoiceLink) (q : PaymentRecord) (now : Str) :
    (recordPayment l q now).billableEventId = l.billableEventId := rfl

theorem applyPayments_amount (ps : List PaymentRecord) (l : InvoiceLink) (now : Str) :
    (applyPayments l ps now).amount = l.amount := by
  induction ps generalizing l with
  | nil => rfl
  | cons q qs ih =>
    show (applyPayments (recordPayment l q now) qs now).amount = l.amount
    rw [ih, recordPayment_amount]

/-- C4. After any sequence of `applyPayment` calls followed by one more
call, the stored balance equals `max 0 (amount − totalPaid)` for the
accumulated `totalPaid`, is never negative, the link amount is untouched,
and — payments being additive with non-negative amounts and never
retracted — `totalPaid` never decreases from one call to the next. -/
theorem c4_balanceInvariant (l : InvoiceLink) (ps : List PaymentRecord)
    (p : PaymentRecord) (now now2 : Str) :
    (recordPayment (applyPayments l ps now) p now2).balance =
      max 0 (l.amount - (recordPayment (applyPayments l ps now) p now2).totalPaid) ∧
    0 ≤ (recordPayment (applyPayments l ps now) p now2).balance ∧
    (recordPayment (applyPayments l ps now) p now2).amount = l.amount ∧
    (0 ≤ p.amount →
      (applyPayments l ps now).totalPaid ≤
        (recordPayment (applyPayments l ps now) p now2).totalPaid) := by
  refine ⟨?_, ?_, ?_, ?_⟩
  · rw [recordPayment_balance, recordPayment_totalPaid, applyPayments_amount]
  · rw [recordPayment_balance]
    exact le_max_left 0 _
  · rw [recordPayment_amount, applyPayments_amount]
  · intro hp
    rw [recordPayment_totalPaid]
    linarith

/-- Witness for C4 at the sample link with payments 400 then 600. -/
theorem c4_balanceInvariant_witness :
    (recordPayment (applyPayments sampleLink [pay400] ("t1".toList)) pay600
        ("t2".toList)).balance =
      max 0 (sampleLink.amount -
        (recordPayment (applyPayments sampleLink [pay400] ("t1".toList)) pay600
          ("t2".toList)).totalPaid) ∧
    (applyPayments sampleLink [pay400] ("t1".toList)).totalPaid ≤
      (recordPayment (applyPayments sampleLink [pay400] ("t1".toList)) pay600
        ("t2".toList)).totalPaid :=
  ⟨(c4_balanceInvariant sampleLink [pay400] pay600 ("t1".toList) ("t2".toList)).1,
    (c4_balanceInvariant sampleLink [pay400] pay600 ("t1".toList) ("t2".toList)).2.2.2
      (by norm_num [pay600, mkPaymentRecord, mkSamplePayment])⟩

/-- C3. `recordPayment` derives the status from the recomputed balance:
non-positive balance yields `PAID`, stamps `paidInFullDate` with the
payment date, and `recordPaymentFromQb` then transitions the linked
billable event to `PAID`; a positive balance with positive `totalPaid`
yields `PARTIAL` with the exact remaining balance; otherwise the status is
unchanged.  Concretely on a 1000 link: a 400 payment gives `PARTIAL` with
balance 600, a following 600 payment gives `PAID` with balance 0 and
`paidInFullDate` set. -/
theorem c3_paymentStatusDerivation (s : PortalState) (userId linkId : Str)
    (p : PaymentInput) (now : Str) (link : InvoiceLink)
    (hl : findInvoiceLinkById s linkId = some link)
    (event : BillableEvent)
    (he : findEventById s link.billableEventId = some event) :
    (link.amount - (link.totalPaid + p.amount) ≤ 0 →
      (recordPayment link (mkPaymentRecord p now) now).qbStatus = .PAID ∧
      (recordPayment link (mkPaymentRecord p now) now).paidInFullDate =
        some p.paymentDate ∧
      ∃ e2, findEventById (recordPaymentFromQb s userId linkId p now).1
          link.billableEventId = some e2 ∧ e2.status = .PAID) ∧
    (0 < link.amount - (link.totalPaid + p.amount) → 0 < link.totalPaid + p.amount →
      (recordPayment link (mkPaymentRecord p now) now).qbStatus = .PARTIAL ∧
      (recordPayment link (mkPaymentRecord p now) now).balance =
        link.amount - (link.totalPaid + p.amount)) ∧
    (0 < link.amount - (link.totalPaid + p.amount) → link.totalPaid + p.amount ≤ 0 →
      (recordPayment link (mkPaymentRecord p now) now).qbStatus = link.qbStatus) ∧
    (recordPayment sampleLink pay400 ("t1".toList)).qbStatus = .PARTIAL ∧
    (recordPayment sampleLink pay400 ("t1".toList)).balance = 600 ∧
    (recordPayment (recordPayment sampleLink pay400 ("t1".toList)) pay600
      ("t2".toList)).qbStatus = .PAID ∧
    (recordPayment (recordPayment sampleLink pay400 ("t1".toList)) pay600
      ("t2".toList)).balance = 0 ∧
    (recordPayment (recordPayment sampleLink pay400 ("t1".toList)) pay600
      ("t2".toList)).paidInFullDate = some ("2024-02-01".toList) := by
  have hamt : (mkPaymentRecord p now).amount = p.amount := rfl
  refine ⟨?_, ?_, ?_, ?_, ?_, ?_, ?_, ?_⟩
  · intro hb
    have hst : (recordPayment link (mkPaymentRecord p now) now).qbStatus = .PAID := by
      simp only [recordPayment, hamt]
      rw [if_pos hb]
    refine ⟨hst, ?_, ?_⟩
    · simp only [recordPayment, hamt]
      rw [if_pos hb]
      rfl
    · have heq : (recordPayment link (mkPaymentRecord p now) now).billableEventId =
          link.billableEventId := rfl
      have hfind1 : findEventById (storageUpdateInvoiceLink s linkId
          (recordPayment link (mkPaymentRecord p now) now) now) link.billableEventId =
          some event := he
      have hid : (updateEventStatus event .PAID userId
          (some ("Payment received".toList)) now).id = link.billableEventId := by
        have hm := List.find?_some he
        simpa [updateEventStatus] using hm
      simp only [recordPaymentFromQb, hl, markAsPaid, heq, hfind1]
      rw [if_pos hst]
      exact ⟨_, findEventById_storageUpdate _ _ event _ now hfind1 hid, rfl⟩
  · intro hb hp
    constructor
    · simp only [recordPayment, hamt]
      rw [if_neg (by linarith), if_pos hp]
    · rw [recordPayment_balance, hamt, max_eq_right (le_of_lt hb)]
  · intro hb hp
    simp only [recordPayment, hamt]
    rw [if_neg (by linarith), if_neg (by linarith)]
  · simp only [recordPayment, sampleLink, pay400, mkPaymentRecord, mkSamplePayment]
    norm_num
  · rw [recordPayment_balance]
    simp only [sampleLink, pay400, mkPaymentRecord, mkSamplePayment]
    norm_num [max_def]
  · simp only [recordPayment, sampleLink, pay400, pay600, mkPaymentRecord, mkSamplePayment]
    norm_num
  · rw [recordPayment_balance, recordPayment_totalPaid, recordPayment_amount]
    simp only [sampleLink, pay400, pay600, mkPaymentRecord, mkSamplePayment]
    norm_num [max_def]
  · simp only [recordPayment, sampleLink, pay400, pay600, mkPaymentRecord, mkSamplePayment]
    norm_num

/-- Witness for C3: the full-payment branch instantiated on the sample
state — paying the whole 1000 marks the link `PAID` and the linked event
ends up `PAID`. -/
theorem c3_paymentStatusDerivation_witness :
    (recordPayment sampleLink (mkPaymentRecord (mkSamplePayment 1000) ("t1".toList))
      ("t1".toList)).qbStatus = .PAID ∧
    ∃ e2, findEventById (recordPaymentFromQb c3State ("u1".toList) ("inv-1".toList)
        (mkSamplePayment 1000) ("t1".toList)).1 sampleLink.billableEventId = some e2 ∧
      e2.status = .PAID := by
  have h := c3_paymentStatusDerivation c3State ("u1".toList) ("inv-1".toList)
    (mkSamplePayment 1000) ("t1".toList) sampleLink (by rfl) sampleEvent (by rfl)
    |>.1 (by norm_num [sampleLink, mkSamplePayment])
  exact ⟨h.1, h.2.2⟩

theorem ceilDiv_pos_iff (a b : ℤ) (hb : 0 < b) : 0 < ceilDiv a b ↔ 0 < a := by
  unfold ceilDiv
  constructor
  · intro h
    by_contra hna
    push_neg at hna
    have hnn : 0 ≤ -a / b := Int.ediv_nonneg (by linarith) hb.le
    linarith
  · intro ha
    have hneg : -a / b < 0 := Int.ediv_neg' (by linarith) hb
    linarith

/-- Counterexample to C7 as stated: the claim's "overdue iff balance > 0 and
now after dueDate" ignores the code's extra `qbStatus === 'PAID'`
short-circuit.  A link whose status was overridden to `PAID` with balance
100 and a due date 45 days in the past has positive balance and is past
due, yet `isOverdue` is false. -/
theorem c7_overdue_counterexample :
    isOverdue paidOverrideLink (45 * msPerDay) = false ∧
    (0 : ℚ) < paidOverrideLink.balance ∧
    paidOverrideLink.dueDate < 45 * msPerDay := by
  refine ⟨?_, by norm_num [paidOverrideLink, sampleLink],
    by norm_num [paidOverrideLink, sampleLink, msPerDay]⟩
  simp [isOverdue, getDaysOverdue, paidOverrideLink, sampleLink]

/-- C7 (amended). A link is overdue iff its status is not `PAID`, its
balance is positive and the current time is after its due date; under those
first two conditions the days-overdue is the ceiling of the millisecond
difference in whole days floored at zero, and is zero otherwise; a link
with balance 0 is never overdue whatever the due date; the aging buckets
partition days-overdue at 30, 60 and 90 with inclusive upper bounds except
the last; and a positive-balance link due 45 days in the past is overdue
with 45 days and bucket `31-60`. -/
theorem c7_overdueAging :
    (∀ (l : InvoiceLink) (now : ℤ), isOverdue l now = true ↔
      (l.qbStatus ≠ .PAID ∧ 0 < l.balance ∧ l.dueDate < now)) ∧
    (∀ (l : InvoiceLink) (now : ℤ), l.qbStatus ≠ .PAID → 0 < l.balance →
      getDaysOverdue l now = max 0 (ceilDiv (now - l.dueDate) msPerDay)) ∧
    (∀ (l : InvoiceLink) (now : ℤ), l.qbStatus = .PAID ∨ l.balance ≤ 0 →
      getDaysOverdue l now = 0) ∧
    (∀ (l : InvoiceLink) (now : ℤ), l.balance = 0 → isOverdue l now = false) ∧
    (∀ d : ℤ, 1 ≤ d → d ≤ 30 → bucketOf d = .b1to30) ∧
    (∀ d : ℤ, 31 ≤ d → d ≤ 60 → bucketOf d = .b31to60) ∧
    (∀ d : ℤ, 61 ≤ d → d ≤ 90 → bucketOf d = .b61to90) ∧
    (∀ d : ℤ, 91 ≤ d → bucketOf d = .b90plus) ∧
    isOverdue sampleLink (45 * msPerDay) = true ∧
    getDaysOverdue sampleLink (45 * msPerDay) = 45 ∧
    bucketOf (reportDaysOverdue sampleLink (45 * msPerDay)) = .b31to60 := by
  have hms : (0 : ℤ) < msPerDay := by norm_num [msPerDay]
  refine ⟨?_, ?_, ?_, ?_, ?_, ?_, ?_, ?_, ?_, ?_, ?_⟩
  · intro l now
    unfold isOverdue getDaysOverdue
    by_cases hc : l.qbStatus = .PAID ∨ l.balance ≤ 0
    · rw [if_pos hc]
      simp only [decide_eq_true_eq, lt_irrefl, false_iff]
      rintro ⟨h1, h2, h3⟩
      rcases hc with hc | hc
      · exact h1 hc
      · linarith
    · rw [if_neg hc]
      push_neg at hc
      simp only [decide_eq_true_eq, lt_max_iff, lt_irrefl, false_or]
      rw [ceilDiv_pos_iff _ _ hms]
      constructor
      · intro h
        exact ⟨hc.1, by linarith [hc.2], by linarith⟩
      · rintro ⟨_, _, h3⟩
        linarith
  · intro l now h1 h2
    unfold getDaysOverdue
    rw [if_neg]
    rintro (hc | hc)
    · exact h1 hc
    · linarith
  · intro l now hc
    unfold getDaysOverdue
    rw [if_pos hc]
  · intro l now hb
    unfold isOverdue getDaysOverdue
    rw [if_pos (Or.inr (le_of_eq hb))]
    simp
  · intro d h1 h2
    unfold bucketOf
    rw [if_pos h2]
  · intro d h1 h2
    unfold bucketOf
    rw [if_neg (by omega), if_pos h2]
  · intro d h1 h2
    unfold bucketOf
    rw [if_neg (by omega), if_neg (by omega), if_pos h2]
  · intro d h1
    unfold bucketOf
    rw [if_neg (by omega), if_neg (by omega), if_neg (by omega)]
  · norm_num [isOverdue, getDaysOverdue, sampleLink, ceilDiv, msPerDay, max_def]
    decide
  · norm_num [getDaysOverdue, sampleLink, ceilDiv, msPerDay, max_def]
    decide
  · norm_num [reportDaysOverdue, bucketOf, sampleLink, ceilDiv, msPerDay]

/-- Witness for C7 (amended): the overdue formula and the bucket bounds
instantiated at the sample link 45 days past due. -/
theorem c7_overdueAging_witness :
    getDaysOverdue sampleLink (45 * msPerDay) =
      max 0 (ceilDiv (45 * msPerDay - sampleLink.dueDate) msPerDay) ∧
    bucketOf 45 = .b31to60 :=
  ⟨c7_overdueAging.2.1 sampleLink (45 * msPerDay)
      (by decide) (by norm_num [sampleLink]),
    c7_overdueAging.2.2.2.2.2.1 45 (by norm_num) (by norm_num)⟩

/-- C8. `approveEvent` succeeds exactly from `PENDING` or `HOLD`: it then
sets `APPROVED`, stamps `approvedAt`/`approvedBy`, appends one history
entry and persists the update; from any other status (such as `INVOICED`)
it fails with the service's validation error — the spec's
`IllegalTransition` — and the state, hence the event's status, is
unchanged. -/
theorem c8_approveLegality (s : PortalState) (userId id : Str) (notes : Option Str)
    (now : Str) (e : BillableEvent) (hfind : findEventById s id = some e) :
    ((e.status = .PENDING ∨ e.status = .HOLD) →
      ∃ upd, approveEvent s userId id notes now =
          (storageUpdateEvent s id upd now, .ok upd) ∧
        upd.status = .APPROVED ∧ upd.approvedAt = some now ∧
        upd.approvedBy = some userId ∧
        upd.statusHistory = e.statusHistory ++ [⟨.APPROVED, now, userId, notes⟩] ∧
        findEventById (approveEvent s userId id notes now).1 id =
          some { upd with updatedAt := now }) ∧
    ((e.status ≠ .PENDING ∧ e.status ≠ .HOLD) →
      (approveEvent s userId id notes now).1 = s ∧
      (approveEvent s userId id notes now).2 =
        .error (.validationError ("Event cannot be approved".toList)) ∧
      findEventById (approveEvent s userId id notes now).1 id = some e) := by
  have hid : e.id = id := by
    have hm := List.find?_some hfind
    simpa using hm
  constructor
  · intro hst
    refine ⟨{ updateEventStatus e .APPROVED userId notes now with
      approvedAt := some now, approvedBy := some userId, approvalNotes := notes },
      ?_, rfl, rfl, rfl, ?_, ?_⟩
    · simp only [approveEvent, hfind, if_pos hst]
    · simp [updateEventStatus]
    · simp only [approveEvent, hfind, if_pos hst]
      exact findEventById_storageUpdate s id e _ now hfind hid
  · rintro ⟨h1, h2⟩
    have hcond : ¬(e.status = .PENDING ∨ e.status = .HOLD) := by tauto
    refine ⟨?_, ?_, ?_⟩
    · simp only [approveEvent, hfind, if_neg hcond]
    · simp only [approveEvent, hfind, if_neg hcond]
    · simp only [approveEvent, hfind, if_neg hcond]

/-- Witness for C8: approving the `INVOICED` fixture fails with the
validation error and leaves the state — and the stored event — unchanged. -/
theorem c8_approveLegality_witness :
    (approveEvent c8State ("u1".toList) ("evt-1".toList) none ("t1".toList)).1 = c8State ∧
    (approveEvent c8State ("u1".toList) ("evt-1".toList) none ("t1".toList)).2 =
      .error (.validationError ("Event cannot be approved".toList)) ∧
    findEventById (approveEvent c8State ("u1".toList) ("evt-1".toList) none
      ("t1".toList)).1 ("evt-1".toList) = some invoicedEvent :=
  (c8_approveLegality c8State ("u1".toList) ("evt-1".toList) none ("t1".toList)
    invoicedEvent (by decide)).2 (by decide)

/-- C10. `markAsPaid` enforces no state-machine precondition: for any
existing event, whatever its current status, it succeeds, sets `PAID`,
appends one history entry and persists the update — its only failure mode
is an unknown event id, unlike `approveEvent`'s status check. -/
theorem c10_markAsPaid_noPrecondition (s : PortalState) (userId id now : Str)
    (e : BillableEvent) (hfind : findEventById s id = some e) :
    markAsPaid s userId id now =
      (storageUpdateEvent s id (updateEventStatus e .PAID userId
          (some ("Payment received".toList)) now) now,
        .ok (updateEventStatus e .PAID userId (some ("Payment received".toList)) now)) ∧
    (updateEventStatus e .PAID userId (some ("Payment received".toList)) now).status =
      .PAID ∧
    (updateEventStatus e .PAID userId
        (some ("Payment received".toList)) now).statusHistory =
      e.statusHistory ++ [⟨.PAID, now, userId, some ("Payment received".toList)⟩] ∧
    findEventById (markAsPaid s userId id now).1 id =
      some { updateEventStatus e .PAID userId (some ("Payment received".toList)) now with
        updatedAt := now } := by
  have hid : e.id = id := by
    have hm := List.find?_some hfind
    simpa using hm
  refine ⟨?_, rfl, rfl, ?_⟩
  · simp only [markAsPaid, hfind]
  · simp only [markAsPaid, hfind]
    exact findEventById_storageUpdate s id e _ now hfind (by simpa [updateEventStatus] using hid)

/-- Witness for C10: `markAsPaid` succeeds on an event that is already
`PAID`, where `approve`-style preconditions would reject. -/
theorem c10_markAsPaid_noPrecondition_witness :
    (markAsPaid c10State ("u1".toList) ("evt-1".toList) ("t1".toList)).2 =
      .ok (updateEventStatus alreadyPaidEvent .PAID ("u1".toList)
        (some ("Payment received".toList)) ("t1".toList)) ∧
    (updateEventStatus alreadyPaidEvent .PAID ("u1".toList)
      (some ("Payment received".toList)) ("t1".toList)).status = .PAID := by
  have h := c10_markAsPaid_noPrecondition c10State ("u1".toList) ("evt-1".toList)
    ("t1".toList) alreadyPaidEvent (by decide)
  exact ⟨by rw [h.1], h.2.1⟩

theorem saveEvent_ok (s : PortalState) (ev : BillableEvent) (s1 : PortalState)
    (e : BillableEvent) (h : saveEvent s ev = (s1, .ok e)) :
    e = ev ∧ s1.billableEvents = s.billableEvents ++ [ev] ∧
    s1.clientPolicies = s.clientPolicies ∧
    idempotencyKeyExists s ev.idempotencyKey = false := by
  unfold saveEvent at h
  split at h
  · exact absurd (congrArg Prod.snd h) (by simp)
  · rename_i hex
    simp only [Prod.mk.injEq, Except.ok.injEq] at h
    obtain ⟨hstate, hevent⟩ := h
    refine ⟨hevent.symm, ?_, ?_, by simpa using hex⟩
    · rw [← hstate]
    · rw [← hstate]

/-- C1. When a create call succeeds on a ledger whose idempotency keys are
pairwise distinct, it persists exactly one event — the returned one,
appended to the ledger; a second create whose inputs (through its client's
active policy) derive that same idempotency key fails with `DuplicateError`
carrying the key and returns the state unchanged, leaving the first event's
stored fields and status untouched; and key uniqueness is preserved, so at
no point do two persisted events share an idempotency key. -/
theorem c1_createDuplicateRejected (s : PortalState) (userId1 userId2 : Str)
    (i1 i2 : CreateEventInput) (newId1 newId2 now1 now2 : Str)
    (e : BillableEvent) (s1 : PortalState)
    (hnodup : (s.billableEvents.map (fun x => x.idempotencyKey)).Nodup)
    (h1 : createEvent s userId1 i1 newId1 now1 = (s1, .ok e))
    (p2 : ClientPolicy)
    (hp2 : getPolicyByClientId s1 i2.clientId = some p2)
    (hkey : generateIdempotencyKey p2.clientCode i2.controlNumber i2.triggerDate
      (feeTypeChars i2.feeType) = e.idempotencyKey) :
    s1.billableEvents = s.billableEvents ++ [e] ∧
    createEvent s1 userId2 i2 newId2 now2 =
      (s1, .error (.duplicateEntry e.idempotencyKey)) ∧
    (s1.billableEvents.map (fun x => x.idempotencyKey)).Nodup := by
  simp only [createEvent] at h1
  split at h1
  · exact absurd (congrArg Prod.snd h1) (by simp)
  · rename_i policy hpol
    split at h1
    · exact absurd (congrArg Prod.snd h1) (by simp)
    · rename_i key hval
      split at h1
      · exact absurd (congrArg Prod.snd h1) (by simp)
      · rename_i amount hamt
        obtain ⟨hev, hs1e, hs1p, hkex⟩ := saveEvent_ok _ _ _ _ h1
        rw [← hev] at hs1e hkex
        have hex2 : idempotencyKeyExists s1 e.idempotencyKey = true := by
          unfold idempotencyKeyExists keyExistsIn
          rw [hs1e, List.any_eq_true]
          exact ⟨e, by simp, by simp⟩
        refine ⟨hs1e, ?_, ?_⟩
        · simp only [createEvent, hp2, validateBeforeCreate, hkey, hex2, if_true]
        · rw [hs1e, List.map_append]
          refine List.Nodup.append hnodup (List.nodup_singleton _) ?_
          intro a ha hb
          simp only [List.map_cons, List.map_nil, List.mem_singleton] at hb
          subst hb
          rw [List.mem_map] at ha
          obtain ⟨x, hx, hxk⟩ := ha
          have : idempotencyKeyExists s e.idempotencyKey = true := by
            unfold idempotencyKeyExists keyExistsIn
            rw [List.any_eq_true]
            exact ⟨x, hx, by simp [hxk]⟩
          rw [hkex] at this
          exact Bool.noConfusion this

/-- Witness for C1: creating twice from the same inputs over the empty
ledger — the first call appends exactly `c1Event`, the second fails with
`DuplicateError` on its key and changes nothing. -/
theorem c1_createDuplicateRejected_witness :
    c1StateAfter.billableEvents = c1State.billableEvents ++ [c1Event] ∧
    createEvent c1StateAfter ("u2".toList) c1Input ("evt-2".toList) ("t2".toList) =
      (c1StateAfter, .error (.duplicateEntry c1Event.idempotencyKey)) ∧
    (c1StateAfter.billableEvents.map (fun x => x.idempotencyKey)).Nodup :=
  c1_createDuplicateRejected c1State ("u1".toList) ("u2".toList) c1Input c1Input
    ("evt-1".toList) ("evt-2".toList) ("t1".toList) ("t2".toList) c1Event c1StateAfter
    (by decide) (by rfl) pctPolicy (by decide) (by decide)

/-- C2 fails on the code: the existence check and the insert of a create
call are a plain read followed by a separate write, with `await` yield
points between them, not an atomic insert-if-absent.  Under the interleaved
schedule `[0, 1, 0, 1, 0, 1]` both calls pass both reads before either
push: two events with the same idempotency key are persisted and both calls
succeed — whereas any sequential order (`[0, 0, 0, 1]`) yields one insert
and one `Duplicate` failure, as the claim requires of every interleaving. -/
theorem c2_checkThenInsertRace :
    (runSchedule raceInit [0, 1, 0, 1, 0, 1]).events.map (fun x => x.idempotencyKey) =
      [raceEventA.idempotencyKey, raceEventA.idempotencyKey] ∧
    ¬((runSchedule raceInit [0, 1, 0, 1, 0, 1]).events.map
        (fun x => x.idempotencyKey)).Nodup ∧
    (runSchedule raceInit [0, 1, 0, 1, 0, 1]).tasks.map (fun t => t.failedDup) =
      [false, false] ∧
    (runSchedule raceInit [0, 0, 0, 1]).events = [raceEventA] ∧
    (runSchedule raceInit [0, 0, 0, 1]).tasks.map (fun t => t.failedDup) =
      [false, true] := by
  refine ⟨by decide, by decide, by decide, by decide, by decide⟩

end FinancialPortal
